import Mathlib

/-!
Verification of the pybot ROS bag decoding/dispatch pipeline
(`src/ros/bag_utils.py`) against its natural-language specification.

The embedding models:
* the per-channel decoder throttle (`should_decode`, sampling counter);
* `ROSBagReader.decode_msg` / `ROSBagReader.iteritems` (registry lookup,
  throttle check, decode, frame yield);
* `ROSBagReader.establish_tfs` (transform resolution loop, early exit,
  exhaustion error) and `check_tf_relations` (verification mode);
* `LaserScanDecoder.decode` (cached cos/sin table keyed by sample count and
  angular bounds);
* `GazeboDecoder.decode` (first-match model-index cache);
* `ROSBagController.run` (callback dispatch).

Numeric payloads are modelled over `ℚ`; the external log engine and the
transform lookup service are modelled as explicit inputs (a list of raw
tuples, and per-message lookup functions), following the spec's
external-collaborator boundary.
-/

namespace PyBot

/-- Modelled from the spec: the `Decoder` base class (its `sample_period`,
`sample_counter`, and `should_decode`) lives in `bot_externals/log_utils.py`,
which is not part of the provided sources. Spec §3/§4.1: the counter starts
at 0; `should_decode` reports whether the next observed message is eligible
(`sample_counter mod sample_period == 0`) and advances the counter as a side
effect of being asked, on every message regardless of decode outcome. -/
structure DecoderCore where
  sample_period : Nat
  sample_counter : Nat
deriving DecidableEq

/-- Modelled from the spec: returns the eligibility flag for the message being
observed and the decoder state with the counter advanced. -/
def should_decode (d : DecoderCore) : Bool × DecoderCore :=
  (d.sample_counter % d.sample_period == 0, ⟨d.sample_period, d.sample_counter + 1⟩)

/-- Observe `k` successive messages on a decoder's channel, recording for each
whether it was eligible for decoding, and returning the final decoder state. -/
def observeSeq (d : DecoderCore) : Nat → List Bool × DecoderCore
  | 0 => ([], d)
  | k + 1 =>
    let p := should_decode d
    let q := observeSeq p.2 k
    (p.1 :: q.1, q.2)

theorem observeSeq_spec (k : Nat) (d : DecoderCore) :
    (observeSeq d k).2 = ⟨d.sample_period, d.sample_counter + k⟩ ∧
    ∀ i : Nat, (observeSeq d k).1.get? i =
      if i < k then some ((d.sample_counter + i) % d.sample_period == 0) else none := by
  induction k generalizing d with
  | zero =>
    refine ⟨by simp [observeSeq], ?_⟩
    intro i
    simp [observeSeq]
  | succ k ih =>
    obtain ⟨h2, h1⟩ := ih ⟨d.sample_period, d.sample_counter + 1⟩
    constructor
    · simp only [observeSeq, should_decode]
      rw [h2]
      show (⟨d.sample_period, d.sample_counter + 1 + k⟩ : DecoderCore) = _
      have : d.sample_counter + 1 + k = d.sample_counter + (k + 1) := by omega
      rw [this]
    · intro i
      cases i with
      | zero =>
        simp [observeSeq, should_decode]
      | succ i =>
        simp only [observeSeq, should_decode, List.get?]
        rw [h1 i]
        by_cases hi : i < k
        · have hik : i + 1 < k + 1 := by omega
          have hca : d.sample_counter + 1 + i = d.sample_counter + (i + 1) := by omega
          simp [hi, hik, hca]
        · have : ¬ (i + 1 < k + 1) := by omega
          simp [hi, this]

/-- C1: for every decoder with sampling period `N ≥ 1`, starting the session
with the counter at 0, after observing `k` messages the counter equals `k`
(it incremented on every message), and message `i` (0-indexed) was decoded if
and only if `i mod N = 0` — exactly every `N`th message. -/
theorem decoder_sampling_invariant (N k : Nat) (hN : 1 ≤ N) :
    (observeSeq ⟨N, 0⟩ k).2.sample_counter = k ∧
    ∀ i : Nat, i < k →
      ((observeSeq ⟨N, 0⟩ k).1.get? i = some true ↔ i % N = 0) := by
  obtain ⟨h2, h1⟩ := observeSeq_spec k ⟨N, 0⟩
  constructor
  · rw [h2]
    simp
  · intro i hi
    rw [h1 i]
    simp [hi]

theorem decoder_sampling_invariant_witness :
    1 ≤ 2 ∧
    ((observeSeq ⟨2, 0⟩ 4).2.sample_counter = 4 ∧
     ∀ i : Nat, i < 4 →
       ((observeSeq ⟨2, 0⟩ 4).1.get? i = some true ↔ i % 2 = 0)) :=
  ⟨by decide, decoder_sampling_invariant 2 4 (by decide)⟩

/-! ### Registry, `decode_msg` and `iteritems` (`ROSBagReader`) -/

/-- Association-list lookup with Python-`dict` semantics (first — and only —
occurrence of a key wins; our insertion keeps keys unique). -/
def lookupD {α β : Type _} [DecidableEq α] : List (α × β) → α → Option β
  | [], _ => none
  | (k', v') :: rest, k => if k' = k then some v' else lookupD rest k

/-- Association-list assignment with Python-`dict` semantics: an existing key
is updated in place (insertion order preserved), a new key is appended. -/
def dictInsert {α β : Type _} [DecidableEq α] : List (α × β) → α → β → List (α × β)
  | [], k, v => [(k, v)]
  | (k', v') :: rest, k, v =>
    if k' = k then (k', v) :: rest else (k', v') :: dictInsert rest k v

/-- Outcome of a decoder's `decode(data)` call: a normal return (whose value
may be `none`, Python's `None`, i.e. an absent value) or a raised exception. -/
inductive DecodeResult (V : Type _)
  | ok (v : Option V)
  | exn

/-- A registered decoder: its throttle state plus its decode behaviour,
modelled as a function from the decoder-local state and the raw message to a
`DecodeResult` and a new decoder-local state. -/
structure RegDecoder (Msg V St : Type _) where
  core : DecoderCore
  dst : St
  runDec : St → Msg → DecodeResult V × St

/-- The decoder registry (`self.decoder` in `ROSBagReader`): channel name to
decoder. -/
abbrev Registry (Msg V St : Type _) := List (String × RegDecoder Msg V St)

/-- A decoded frame `(t, channel, value)` as yielded by `iteritems`; the value
is `Option V` because `decode` may return `None`. -/
abbrev Frame (V : Type _) := Nat × String × Option V

/-- `ROSBagReader.decode_msg` (src/ros/bag_utils.py:297-308): look up the
channel's decoder (a missing channel raises `KeyError`, caught — result
`(False, (None, None))`); call `should_decode()` (advancing the counter); if
eligible, call `decode(data)`; a raised exception is caught and yields
`(False, ...)`; otherwise the result is `(True, (t, channel, value))`
regardless of whether `value` is absent. -/
def decode_msg {Msg V St : Type _} (reg : Registry Msg V St) (channel : String)
    (data : Msg) (t : Nat) : (Bool × Option (Frame V)) × Registry Msg V St :=
  match lookupD reg channel with
  | none => ((false, none), reg)
  | some d =>
    let sd := should_decode d.core
    if sd.1 then
      match d.runDec d.dst data with
      | (DecodeResult.ok v, st') =>
        ((true, some (t, channel, v)), dictInsert reg channel ⟨sd.2, st', d.runDec⟩)
      | (DecodeResult.exn, st') =>
        ((false, none), dictInsert reg channel ⟨sd.2, st', d.runDec⟩)
    else ((false, none), dictInsert reg channel ⟨sd.2, d.dst, d.runDec⟩)

/-- The body of the unindexed `iteritems` loop (src/ros/bag_utils.py:287-295):
for each raw `(channel, msg, t)` tuple delivered by the external log, call
`decode_msg` and yield the frame exactly when the returned flag is true. -/
def iter_loop {Msg V St : Type _} (reg : Registry Msg V St) :
    List (String × Msg × Nat) → List (Frame V)
  | [] => []
  | (ch, data, t) :: rest =>
    let r := decode_msg reg ch data t
    match r.1 with
    | (true, some f) => f :: iter_loop r.2 rest
    | _ => iter_loop r.2 rest

/-- Errors raised by `iteritems` before yielding anything. -/
inductive IterErr
  | notImplemented
  | cannotReverse
deriving DecidableEq

/-- `ROSBagReader.iteritems` (src/ros/bag_utils.py:264-295): with an index
configured it raises `NotImplementedError`; unindexed with `reverse=True` it
raises `RuntimeError`; otherwise it decodes the raw tuples the external log
delivers (already filtered to registered topics and windowed to the computed
start time by the excluded log engine). -/
def iteritems {Msg V St : Type _} (index : Option (List Nat)) (reverse : Bool)
    (reg : Registry Msg V St) (msgs : List (String × Msg × Nat)) :
    Except IterErr (List (Frame V)) :=
  match index with
  | some _ => Except.error IterErr.notImplemented
  | none =>
    if reverse then Except.error IterErr.cannotReverse
    else Except.ok (iter_loop reg msgs)

/-- Projection of an `Except` onto its error, for decidable statements. -/
def exErr {ε α : Type _} : Except ε α → Option ε
  | Except.error e => some e
  | Except.ok _ => none

/-- Projection of an `Except` onto its normal result. -/
def exOk {ε α : Type _} : Except ε α → Option α
  | Except.ok a => some a
  | Except.error _ => none

/-- The transform passthrough decoder `TfDecoderAndPublisher`
(src/ros/bag_utils.py:109-120): its state records whether the lazily-created
publisher exists; `decode` publishes the message (side effect on the external
sink, not modelled beyond the handle) and returns `None` — an absent value. -/
def tfPassthroughDecoder : RegDecoder Unit Unit Bool :=
  ⟨⟨1, 0⟩, false, fun _ _ => (DecodeResult.ok none, true)⟩

/-- C2 counterexample: with the repository's own transform passthrough decoder
registered on `/tf` (its `decode` returns `None`), `iteritems` *does* yield a
Frame for the consumed tuple, with an absent value — refuting "a tuple whose
decode returns an absent value yields no Frame". -/
theorem iteritems_absent_value_cex :
    exOk (iteritems none false [("/tf", tfPassthroughDecoder)] [("/tf", (), 5)]) =
      some [(5, "/tf", (none : Option Unit))] := rfl

/-- C2 (amended): `decode_msg` reports a yielded frame iff the channel's
decoder lookup succeeded, `should_decode` returned true (counter congruent to
0 modulo the period), and `decode` returned normally; the frame carries
exactly the decoder's returned value, which may be absent. -/
theorem decode_msg_yields_iff {Msg V St : Type _} (reg : Registry Msg V St)
    (ch : String) (data : Msg) (t : Nat) (fr : Frame V) :
    (decode_msg reg ch data t).1 = (true, some fr) ↔
      ∃ d : RegDecoder Msg V St, lookupD reg ch = some d ∧
        d.core.sample_counter % d.core.sample_period = 0 ∧
        ∃ v st', d.runDec d.dst data = (DecodeResult.ok v, st') ∧ fr = (t, ch, v) := by
  unfold decode_msg
  cases hl : lookupD reg ch with
  | none => simp
  | some d =>
    simp only [should_decode]
    by_cases he : d.core.sample_counter % d.core.sample_period = 0
    · simp only [he, beq_self_eq_true, if_true]
      cases hr : d.runDec d.dst data with
      | mk res st' =>
        cases res with
        | ok v =>
          constructor
          · intro h
            refine ⟨d, rfl, he, v, st', hr, ?_⟩
            simpa using h.symm
          · rintro ⟨d', hd', _, v', st'', hrun', hfr⟩
            have hdd : d = d' := by simpa using hd'
            subst hdd
            rw [hr] at hrun'
            simp at hrun'
            simp [hfr, hrun'.1]
        | exn =>
          constructor
          · intro h
            simp at h
          · rintro ⟨d', hd', _, v', st'', hrun', _⟩
            have hdd : d = d' := by simpa using hd'
            subst hdd
            rw [hr] at hrun'
            simp at hrun'
    · have hb : (d.core.sample_counter % d.core.sample_period == 0) = false := by
        simpa using he
      simp only [hb, Bool.false_eq_true, if_false]
      constructor
      · intro h
        simp at h
      · rintro ⟨d', hd', hper, _⟩
        have hdd : d = d' := by simpa using hd'
        subst hdd
        exact absurd hper he

/-- C10: with an index configured, `iteritems` raises `NotImplementedError`
(whatever `reverse` is); unindexed with `reverse=True` it raises
`RuntimeError` — in both cases before yielding any Frame. -/
theorem iteritems_reverse_indexed_unsupported {Msg V St : Type _}
    (reg : Registry Msg V St) (msgs : List (String × Msg × Nat)) :
    (∀ (idx : List Nat) (reverse : Bool),
        iteritems (some idx) reverse reg msgs = Except.error IterErr.notImplemented) ∧
    iteritems none true reg msgs = (Except.error IterErr.cannotReverse : Except IterErr (List (Frame V))) := by
  constructor
  · intro idx reverse
    rfl
  · rfl

/-! ### Transform resolution (`ROSBagReader.establish_tfs`) -/

/-- `bot_geometry.rigid_transform.RigidTransform(tvec=trans, xyzw=rot)` as
constructed by the resolver; coordinates over `ℚ`. -/
structure RigidTransform where
  tvec : List ℚ
  xyzw : List ℚ
deriving DecidableEq

/-- A requested relation `(from_tf, to_tf)`. -/
abbrev Rel := String × String

/-- The `relations_map`. -/
abbrev RelMap := List (Rel × RigidTransform)

/-- The external transform lookup service's answer after one more transform
message has been republished: for each queried relation, either
`(trans, rot)` or a (transient) lookup failure. One such function per
transform message models `tf_listener.lookupTransform` at that message's
timestamp. -/
abbrev TfLookup := Rel → Option (List ℚ × List ℚ)

/-- The inner loop of `establish_tfs` for one transform message
(src/ros/bag_utils.py:203-210): for every requested relation — resolved or
not — query the lookup service; on success store
`RigidTransform(tvec=trans, xyzw=rot)` under the relation (overwriting any
earlier entry); on failure silently skip. -/
def tf_step (relations : List Rel) (f : TfLookup) (m : RelMap) : RelMap :=
  relations.foldl
    (fun acc r =>
      match f r with
      | some tr => dictInsert acc r ⟨tr.1, tr.2⟩
      | none => acc) m

/-- Plain replay of the inner loop over a list of messages with no early
exit; used to say "all relations are resolved by message `k`". -/
def tf_run (relations : List Rel) (msgs : List TfLookup) (m : RelMap) : RelMap :=
  msgs.foldl (fun acc f => tf_step relations f acc) m

/-- The message loop of `establish_tfs` (src/ros/bag_utils.py:200-214),
returning the final map and the number of transform messages consumed; it
breaks as soon as `len(relations_map) == len(relations)`. -/
def establish_loop (relations : List Rel) : List TfLookup → RelMap → RelMap × Nat
  | [], m => (m, 0)
  | f :: rest, m =>
    let m' := tf_step relations f m
    if m'.length = relations.length then (m', 1)
    else
      let p := establish_loop relations rest m'
      (p.1, p.2 + 1)

/-- The list comprehension `[relations_map[r] for r in relations]`: all the
looked-up transforms, or `none` as soon as any key is missing (`KeyError`). -/
def lookupAll (m : RelMap) : List Rel → Option (List RigidTransform)
  | [] => some []
  | r :: rest =>
    match lookupD m r, lookupAll m rest with
    | some p, some ps => some (p :: ps)
    | _, _ => none

/-- `ROSBagReader.establish_tfs` (src/ros/bag_utils.py:183-226): run the
message loop from the session's empty `relations_map`, then build
`[relations_map[r] for r in relations]`; a missing key (`KeyError`) is caught
and re-raised as `RuntimeError('Error concerning tf lookup')`. -/
def establish_tfs (relations : List Rel) (stream : List TfLookup) :
    Except String (List RigidTransform) :=
  match lookupAll (establish_loop relations stream []).1 relations with
  | some tfs => Except.ok tfs
  | none => Except.error "Error concerning tf lookup"

theorem lookupAll_eq_none_of_mem (m : RelMap) (l : List Rel) (x : Rel)
    (hx : x ∈ l) (hf : lookupD m x = none) : lookupAll m l = none := by
  induction l with
  | nil => cases hx
  | cons a rest ih =>
    cases hx with
    | head => simp [lookupAll, hf]
    | tail _ hmem =>
      cases hfa : lookupD m a with
      | none => simp [lookupAll, hfa]
      | some b => simp [lookupAll, hfa, ih hmem]

/-- C3 counterexample: requesting `("base","sensor")` and `("base","gazebo")`
against a one-message stream that only ever resolves the former, the call
fails — but with the fixed message `"Error concerning tf lookup"`, in which
the unresolved relation's frame name `"gazebo"` does not even occur as a
substring. The error therefore does not name the unresolved Relations. -/
theorem establish_tfs_error_unnamed_cex :
    exErr (establish_tfs [("base", "sensor"), ("base", "gazebo")]
        [fun r => if r = ("base", "sensor") then some ([1], [0]) else none]) =
      some "Error concerning tf lookup" ∧
    ¬ List.IsInfix "gazebo".toList "Error concerning tf lookup".toList := by
  constructor
  · rfl
  · decide

/-- C3 (amended): if the transform stream is exhausted with some requested
relation `r` still unresolved (absent from the final `relations_map`),
`establish_tfs` fails with `RuntimeError('Error concerning tf lookup')` — a
fixed message that does not name the unresolved Relations. -/
theorem establish_tfs_exhausted_error (relations : List Rel) (stream : List TfLookup)
    (r : Rel) (hr : r ∈ relations)
    (hu : lookupD (establish_loop relations stream []).1 r = none) :
    establish_tfs relations stream = Except.error "Error concerning tf lookup" := by
  unfold establish_tfs
  rw [lookupAll_eq_none_of_mem _ relations r hr hu]

theorem establish_tfs_exhausted_error_witness :
    ("base", "gazebo") ∈ [(("base", "sensor") : Rel), ("base", "gazebo")] ∧
    lookupD (establish_loop [(("base", "sensor") : Rel), ("base", "gazebo")]
        [fun r => if r = ("base", "sensor") then some ([1], [0]) else none] []).1
        ("base", "gazebo") = none ∧
    establish_tfs [("base", "sensor"), ("base", "gazebo")]
        [fun r => if r = ("base", "sensor") then some ([1], [0]) else none] =
      Except.error "Error concerning tf lookup" :=
  ⟨by decide, by decide,
    establish_tfs_exhausted_error _ _ ("base", "gazebo") (by decide) (by decide)⟩

theorem establish_loop_le_of_take (relations : List Rel) :
    ∀ (stream : List TfLookup) (k : Nat) (m : RelMap),
      (tf_run relations (stream.take k) m).length = relations.length →
      m.length ≠ relations.length →
      (establish_loop relations stream m).2 ≤ k := by
  intro stream
  induction stream with
  | nil =>
    intro k m _ _
    simp [establish_loop]
  | cons f rest ih =>
    intro k m hcov hm
    cases k with
    | zero =>
      simp only [List.take_zero, tf_run, List.foldl_nil] at hcov
      exact absurd hcov hm
    | succ j =>
      simp only [List.take_succ_cons, tf_run, List.foldl_cons] at hcov
      unfold establish_loop
      by_cases hc : (tf_step relations f m).length = relations.length
      · simp only [hc, if_true]
        omega
      · simp only [hc, if_false]
        have := ih j (tf_step relations f m) hcov hc
        omega

/-- C4: if at least one Relation is requested and replaying the first `k`
transform messages (from the session's empty map) resolves every requested
Relation, then `establish_tfs`'s loop consumes at most `k` messages — it
never reads the stream beyond the point of full resolution. -/
theorem establish_tfs_early_exit (relations : List Rel) (stream : List TfLookup)
    (k : Nat) (hne : relations ≠ [])
    (hcov : (tf_run relations (stream.take k) []).length = relations.length) :
    (establish_loop relations stream []).2 ≤ k := by
  refine establish_loop_le_of_take relations stream k [] hcov ?_
  intro h
  exact hne (List.eq_nil_of_length_eq_zero h.symm)

theorem establish_tfs_early_exit_witness :
    ([(("a", "b") : Rel)] ≠ []) ∧
    (tf_run [(("a", "b") : Rel)]
        (List.take 1 [fun r => if r = (("a", "b") : Rel) then some ([1], [0]) else none,
          fun _ => some ([9], [9])]) []).length = [(("a", "b") : Rel)].length ∧
    (establish_loop [(("a", "b") : Rel)]
        [fun r => if r = (("a", "b") : Rel) then some ([1], [0]) else none,
          fun _ => some ([9], [9])] []).2 ≤ 1 :=
  ⟨by decide, by decide, establish_tfs_early_exit _ _ 1 (by decide) (by decide)⟩

/-- C5 counterexample: requesting `("a","b")` and `("c","d")` against a
two-message stream whose lookups answer `("a","b")` both times — with
different poses — the resolver re-queries the already-resolved relation on
the second message and overwrites its recorded Pose: after message 1 the map
holds `tvec=[1]`, but the final map holds `tvec=[2]`. -/
theorem establish_tfs_overwrite_cex :
    lookupD (tf_step [(("a", "b") : Rel), ("c", "d")]
        (fun r => if r = (("a", "b") : Rel) then some ([1], [0]) else none) [])
        ("a", "b") = some ⟨[1], [0]⟩ ∧
    lookupD (establish_loop [(("a", "b") : Rel), ("c", "d")]
        [fun r => if r = (("a", "b") : Rel) then some ([1], [0]) else none,
         fun r => if r = (("a", "b") : Rel) then some ([2], [0]) else none] []).1
        ("a", "b") = some ⟨[2], [0]⟩ ∧
    (⟨[1], [0]⟩ : RigidTransform) ≠ ⟨[2], [0]⟩ := by
  refine ⟨by decide, by decide, by decide⟩

theorem lookupD_dictInsert_self {α β : Type _} [DecidableEq α]
    (m : List (α × β)) (k : α) (v : β) : lookupD (dictInsert m k v) k = some v := by
  induction m with
  | nil => simp [dictInsert, lookupD]
  | cons p rest ih =>
    by_cases h : p.1 = k
    · simp [dictInsert, lookupD, h]
    · simp [dictInsert, lookupD, h, ih]

theorem lookupD_dictInsert_ne {α β : Type _} [DecidableEq α]
    (m : List (α × β)) (k k' : α) (v : β) (h : k ≠ k') :
    lookupD (dictInsert m k v) k' = lookupD m k' := by
  induction m with
  | nil => simp [dictInsert, lookupD, h]
  | cons p rest ih =>
    by_cases hp : p.1 = k
    · simp [dictInsert, lookupD, hp, h]
    · simp only [dictInsert, hp, if_false]
      by_cases hp' : p.1 = k'
      · simp [lookupD, hp']
      · simp [lookupD, hp', ih]

theorem tf_step_not_mem (f : TfLookup) (r : Rel) :
    ∀ relations : List Rel, r ∉ relations →
      ∀ m : RelMap, lookupD (tf_step relations f m) r = lookupD m r := by
  intro relations
  induction relations with
  | nil =>
    intro _ m
    simp [tf_step]
  | cons a rest ih =>
    intro hr m
    have har : a ≠ r := fun h => hr (h ▸ List.mem_cons_self a rest)
    have hrrest : r ∉ rest := fun h => hr (List.mem_cons_of_mem a h)
    simp only [tf_step, List.foldl_cons]
    cases hfa : f a with
    | none => exact ih hrrest m
    | some tr =>
      rw [show (List.foldl _ (dictInsert m a ⟨tr.1, tr.2⟩) rest : RelMap) =
            tf_step rest f (dictInsert m a ⟨tr.1, tr.2⟩) from rfl]
      rw [ih hrrest (dictInsert m a ⟨tr.1, tr.2⟩)]
      exact lookupD_dictInsert_ne _ _ _ _ har

/-- C5 (amended): the resolver re-queries every requested Relation on every
transform message until the whole set is resolved; a successful lookup
overwrites any previously recorded Pose, so the recorded Pose for a relation
is the one from the *last* successful lookup, not the first. For a duplicate-
free request list, one message step maps relation `r` to the fresh lookup
result when the lookup succeeds and keeps the old entry otherwise. -/
theorem tf_step_overwrite_aux (f : TfLookup) (r : Rel) :
    ∀ relations : List Rel, r ∈ relations → relations.Nodup →
      ∀ m : RelMap, lookupD (tf_step relations f m) r =
        match f r with
        | some tr => some ⟨tr.1, tr.2⟩
        | none => lookupD m r := by
  intro relations
  induction relations with
  | nil =>
    intro hr
    cases hr
  | cons a rest ih =>
    intro hr hnd m
    have hndr : rest.Nodup := (List.nodup_cons.mp hnd).2
    cases hr with
    | head =>
      have hnotin : r ∉ rest := (List.nodup_cons.mp hnd).1
      simp only [tf_step, List.foldl_cons]
      cases hfr : f r with
      | none =>
        exact tf_step_not_mem f r rest hnotin m
      | some tr =>
        rw [show (List.foldl _ (dictInsert m r ⟨tr.1, tr.2⟩) rest : RelMap) =
              tf_step rest f (dictInsert m r ⟨tr.1, tr.2⟩) from rfl]
        rw [tf_step_not_mem f r rest hnotin (dictInsert m r ⟨tr.1, tr.2⟩)]
        exact lookupD_dictInsert_self _ _ _
    | tail _ hmem =>
      have har : a ≠ r := by
        intro h
        exact (List.nodup_cons.mp hnd).1 (h ▸ hmem)
      simp only [tf_step, List.foldl_cons]
      cases hfa : f a with
      | none => exact ih hmem hndr m
      | some tr =>
        rw [show (List.foldl _ (dictInsert m a ⟨tr.1, tr.2⟩) rest : RelMap) =
              tf_step rest f (dictInsert m a ⟨tr.1, tr.2⟩) from rfl]
        rw [ih hmem hndr (dictInsert m a ⟨tr.1, tr.2⟩)]
        cases hfr : f r with
        | none => exact lookupD_dictInsert_ne _ _ _ _ har
        | some tr' => rfl

theorem tf_step_overwrites (relations : List Rel) (f : TfLookup) (m : RelMap)
    (r : Rel) (hr : r ∈ relations) (hnd : relations.Nodup) :
    lookupD (tf_step relations f m) r =
      match f r with
      | some tr => some ⟨tr.1, tr.2⟩
      | none => lookupD m r :=
  tf_step_overwrite_aux f r relations hr hnd m

theorem tf_step_overwrites_witness :
    (("a", "b") ∈ [(("a", "b") : Rel), ("c", "d")]) ∧
    ([(("a", "b") : Rel), ("c", "d")].Nodup) ∧
    lookupD (tf_step [(("a", "b") : Rel), ("c", "d")]
        (fun r => if r = (("a", "b") : Rel) then some ([2], [0]) else none)
        [((("a", "b") : Rel), ⟨[1], [0]⟩)]) ("a", "b") =
      match (fun r => if r = (("a", "b") : Rel) then some (([2], [0]) : List ℚ × List ℚ) else none) ("a", "b") with
      | some tr => some ⟨tr.1, tr.2⟩
      | none => lookupD [((("a", "b") : Rel), ⟨[1], [0]⟩)] ("a", "b") :=
  ⟨by decide, by decide,
    tf_step_overwrites _ _ _ ("a", "b") (by decide) (by decide)⟩

/-! ### Verification mode (`ROSBagReader.check_tf_relations`) -/

/-- What went wrong inside the `try` block of `check_tf_relations`: either
the observed channel is missing from `relations_lut` (`KeyError`), or the
observed frame id differs from the expected one (the deliberately raised
`RuntimeError('TF Check failed ...')`). -/
inductive CheckInner
  | keyErr (ch : String)
  | mismatch (ch observed expected : String)
deriving DecidableEq

/-- The error `check_tf_relations` actually propagates: both inner failures
are caught by the enclosing `except` and re-raised as
`ValueError('Wrongly defined relations_lut ...')`. -/
inductive CheckFail
  | wrongLut (inner : CheckInner)
deriving DecidableEq

/-- Python `dict((k, v) for (k, v) in relations)`: later duplicates win. -/
def toDict {α β : Type _} [DecidableEq α] (l : List (α × β)) : List (α × β) :=
  l.foldl (fun m p => dictInsert m p.1 p.2) []

/-- Python `set.add`. -/
def setAdd (s : List String) (x : String) : List String :=
  if x ∈ s then s else x :: s

/-- The message loop of `check_tf_relations` (src/ros/bag_utils.py:244-257)
over the `(channel, frame_id)` pairs the log delivers, returning the outcome
and the number of messages consumed: a missing channel or a frame-id mismatch
aborts immediately (wrapped as `ValueError`); a match adds the channel to the
`checked` set and the loop breaks once every key of `relations_lut` is
checked. -/
def check_loop (lut : List (String × String)) :
    List (String × String) → List String → Except CheckFail Unit × Nat
  | [], _ => (Except.ok (), 0)
  | (ch, fid) :: rest, checked =>
    match lookupD lut ch with
    | none => (Except.error (CheckFail.wrongLut (CheckInner.keyErr ch)), 1)
    | some expected =>
      if expected = fid then
        let checked' := setAdd checked ch
        if checked'.length = lut.length then (Except.ok (), 1)
        else
          let p := check_loop lut rest checked'
          (p.1, p.2 + 1)
      else
        (Except.error (CheckFail.wrongLut (CheckInner.mismatch ch fid expected)), 1)

/-- `ROSBagReader.check_tf_relations` (src/ros/bag_utils.py:228-259). -/
def check_tf_relations (relations : List (String × String))
    (msgs : List (String × String)) : Except CheckFail Unit × Nat :=
  check_loop (toDict relations) msgs []

/-- C7: with expected mapping `{chanA: "frameX"}` and a log delivering
`chanA` with frame id `"frameY"` followed by another message, the check stops
immediately (one message consumed, the second never read) — but the error it
propagates is `ValueError('Wrongly defined relations_lut ...')` wrapping the
mismatch `RuntimeError`, because the `except` clause catches the checker's own
deliberate raise; the distinct mismatch error the spec requires never escapes. -/
theorem check_tf_mismatch_wrapped :
    check_tf_relations [("chanA", "frameX")] [("chanA", "frameY"), ("chanB", "frameZ")] =
      (Except.error (CheckFail.wrongLut (CheckInner.mismatch "chanA" "frameY" "frameX")), 1) := by
  rfl

/-! ### Callback dispatch (`ROSBagController.run`) -/

/-- Outcome of one callback invocation. -/
inductive CbResult
  | ok
  | exn
deriving DecidableEq

/-- How `run()` fails. -/
inductive RunFail
  | noCallbacks
  | fatal
deriving DecidableEq

/-- A registered callback `(timestamp, value) -> outcome`. -/
abbrev Callback (V : Type _) := Nat → Option V → CbResult

/-- The dispatch loop of `ROSBagController.run` (src/ros/bag_utils.py:337-343),
returning the channels whose callbacks were invoked (in order) and the
outcome: `self.cb_[ch](t, data)` runs inside a `try` whose handler re-raises
any exception — including the `KeyError` from an unregistered channel, which
is looked up before any call happens — as a fatal `RuntimeError`. -/
def run_loop {V : Type _} (cbs : List (String × Callback V)) :
    List (Frame V) → List String → List String × Except RunFail Unit
  | [], acc => (acc.reverse, Except.ok ())
  | (t, ch, v) :: rest, acc =>
    match lookupD cbs ch with
    | none => (acc.reverse, Except.error RunFail.fatal)
    | some f =>
      match f t v with
      | CbResult.ok => run_loop cbs rest (ch :: acc)
      | CbResult.exn => ((ch :: acc).reverse, Except.error RunFail.fatal)

/-- `ROSBagController.run` (src/ros/bag_utils.py:333-343): an empty callback
registry is a configuration error; otherwise dispatch every decoded frame. -/
def controller_run {V : Type _} (cbs : List (String × Callback V))
    (frames : List (Frame V)) : List String × Except RunFail Unit :=
  if cbs.isEmpty then ([], Except.error RunFail.noCallbacks)
  else run_loop cbs frames []

/-- C8 counterexample: one callback registered on channel `"a"`, one frame
on the unregistered channel `"b"`: no callback is invoked for it, but `run()`
*does* fail — the `KeyError` from `self.cb_[ch]` is re-raised as a fatal
`RuntimeError`. There is no defensive membership check in the code. -/
theorem run_unregistered_fatal_cex :
    controller_run [("a", (fun _ _ => CbResult.ok : Callback Unit))] [(0, "b", none)] =
      ([], Except.error RunFail.fatal) := rfl

theorem run_loop_invoked_registered {V : Type _} (cbs : List (String × Callback V)) :
    ∀ (frames : List (Frame V)) (acc : List String),
      (∀ ch ∈ acc, (lookupD cbs ch).isSome = true) →
      ∀ ch ∈ (run_loop cbs frames acc).1, (lookupD cbs ch).isSome = true := by
  intro frames
  induction frames with
  | nil =>
    intro acc hacc ch hch
    simp only [run_loop, List.mem_reverse] at hch
    exact hacc ch hch
  | cons fr rest ih =>
    intro acc hacc ch hch
    obtain ⟨t, c, v⟩ := fr
    cases hl : lookupD cbs c with
    | none =>
      simp only [run_loop, hl, List.mem_reverse] at hch
      exact hacc ch hch
    | some f =>
      cases hf : f t v with
      | ok =>
        simp only [run_loop, hl, hf] at hch
        refine ih (c :: acc) ?_ ch hch
        intro ch' hch'
        cases hch' with
        | head => simp [hl]
        | tail _ hmem => exact hacc ch' hmem
      | exn =>
        simp only [run_loop, hl, hf, List.mem_reverse] at hch
        cases hch with
        | head => simp [hl]
        | tail _ hmem => exact hacc ch hmem

theorem run_loop_fatal_of_unregistered {V : Type _} (cbs : List (String × Callback V)) :
    ∀ (frames : List (Frame V)) (acc : List String),
      (∃ fr ∈ frames, (lookupD cbs fr.2.1).isNone = true) →
      (run_loop cbs frames acc).2 = Except.error RunFail.fatal := by
  intro frames
  induction frames with
  | nil =>
    intro acc h
    obtain ⟨fr, hfr, _⟩ := h
    cases hfr
  | cons fr0 rest ih =>
    intro acc h
    obtain ⟨t, c, v⟩ := fr0
    cases hl : lookupD cbs c with
    | none => simp [run_loop, hl]
    | some f =>
      cases hf : f t v with
      | exn => simp [run_loop, hl, hf]
      | ok =>
        simp only [run_loop, hl, hf]
        refine ih (c :: acc) ?_
        obtain ⟨fr, hfr, hnone⟩ := h
        cases hfr with
        | head =>
          simp only at hnone
          rw [hl] at hnone
          simp at hnone
        | tail _ hmem => exact ⟨fr, hmem, hnone⟩

/-- C8 (amended): callbacks are invoked only for Frames whose channel is
registered (the registry lookup precedes the call), but the controller has no
defensive membership check: if any yielded Frame's channel has no registered
callback, the `KeyError` raised by `self.cb_[ch]` is caught and re-raised as
a fatal `RuntimeError`, so `run()` fails on it. -/
theorem controller_run_membership {V : Type _} (cbs : List (String × Callback V))
    (frames : List (Frame V)) (hne : cbs.isEmpty = false)
    (hbad : ∃ fr ∈ frames, (lookupD cbs fr.2.1).isNone = true) :
    (∀ ch ∈ (controller_run cbs frames).1, (lookupD cbs ch).isSome = true) ∧
    (controller_run cbs frames).2 = Except.error RunFail.fatal := by
  unfold controller_run
  rw [hne]
  simp only [Bool.false_eq_true, if_false]
  exact ⟨run_loop_invoked_registered cbs frames [] (by simp), run_loop_fatal_of_unregistered cbs frames [] hbad⟩

theorem controller_run_membership_witness :
    ([(("a", fun _ _ => CbResult.ok) : String × Callback Unit)].isEmpty = false) ∧
    (∃ fr ∈ [((0, "b", none) : Frame Unit)],
        (lookupD [(("a", fun _ _ => CbResult.ok) : String × Callback Unit)] fr.2.1).isNone = true) ∧
    ((∀ ch ∈ (controller_run [(("a", fun (_ : Nat) (_ : Option Unit) => CbResult.ok))]
        [((0, "b", none) : Frame Unit)]).1,
        (lookupD [(("a", fun (_ : Nat) (_ : Option Unit) => CbResult.ok))] ch).isSome = true) ∧
      (controller_run [(("a", fun (_ : Nat) (_ : Option Unit) => CbResult.ok))]
        [((0, "b", none) : Frame Unit)]).2 = Except.error RunFail.fatal) :=
  ⟨rfl, ⟨(0, "b", none), by simp, rfl⟩,
    controller_run_membership _ _ rfl ⟨(0, "b", none), by simp, rfl⟩⟩

/-! ### Laser-scan decoding (`LaserScanDecoder`) -/

/-- The fields of a `sensor_msgs/LaserScan` message the decoder reads. -/
structure LaserScan where
  ranges : List ℚ
  angle_min : ℚ
  angle_max : ℚ
  angle_increment : ℚ
deriving DecidableEq

/-- The decoder's cached state: the previously stored angular bounds and the
cached cos/sin table (one `(cos θ_i, sin θ_i)` pair per sample). The initial
state (src/ros/bag_utils.py:76-78) is bounds `0.0` and an empty table. -/
structure LaserState where
  angle_min : ℚ
  angle_max : ℚ
  cos_sin_map : List (ℚ × ℚ)
deriving DecidableEq

/-- The initial `LaserScanDecoder` cache state. -/
def laserInit : LaserState := ⟨0, 0, []⟩

/-- The trigonometric table over the sample angles
`angle_min + i * angle_increment`, `i = 0 .. N-1`. The table generator
functions `cosF`/`sinF` are parameters of the embedding: the caching logic is
independent of the actual trigonometric functions, whose floating-point
values are not representable here. -/
def computeMap (cosF sinF : ℚ → ℚ) (amin ainc : ℚ) (N : Nat) : List (ℚ × ℚ) :=
  (List.range N).map (fun (i : Nat) => (cosF (amin + (i : ℚ) * ainc), sinF (amin + (i : ℚ) * ainc)))

/-- `np.hstack([(ranges * cos_sin_map).T, zeros])`: row `i` is
`(rᵢ·cosθᵢ, rᵢ·sinθᵢ, 0)`. -/
def scanPoints (ranges : List ℚ) (tbl : List (ℚ × ℚ)) : List (ℚ × ℚ × ℚ) :=
  List.zipWith (fun r cs => (r * cs.1, r * cs.2, 0)) ranges tbl

/-- `LaserScanDecoder.decode` (src/ros/bag_utils.py:80-104): rebuild the
cos/sin table only if the cached table's sample count or the stored angular
bounds differ from the message's — the dirty check does *not* look at
`angle_increment` — then multiply the ranges by the table and append a zero
column. -/
def laser_decode (cosF sinF : ℚ → ℚ) (st : LaserState) (msg : LaserScan) :
    List (ℚ × ℚ × ℚ) × LaserState :=
  if st.cos_sin_map.length ≠ msg.ranges.length ∨ st.angle_min ≠ msg.angle_min ∨
      st.angle_max ≠ msg.angle_max then
    (scanPoints msg.ranges
        (computeMap cosF sinF msg.angle_min msg.angle_increment msg.ranges.length),
      ⟨msg.angle_min, msg.angle_max,
        computeMap cosF sinF msg.angle_min msg.angle_increment msg.ranges.length⟩)
  else
    (scanPoints msg.ranges st.cos_sin_map, st)

/-- Decode a sequence of scans threading the cache state. -/
def laser_run (cosF sinF : ℚ → ℚ) (st : LaserState) : List LaserScan → List (List (ℚ × ℚ × ℚ))
  | [] => []
  | m :: rest =>
    let p := laser_decode cosF sinF st m
    p.1 :: laser_run cosF sinF p.2 rest

/-- The spec's comparison decoder: recompute the trigonometric table on every
call (no cache). -/
def laser_fresh (cosF sinF : ℚ → ℚ) (msg : LaserScan) : List (ℚ × ℚ × ℚ) :=
  scanPoints msg.ranges
    (computeMap cosF sinF msg.angle_min msg.angle_increment msg.ranges.length)

/-- C6 counterexample: two scans with the same sample count and angular
bounds but different `angle_increment`. The dirty check
(src/ros/bag_utils.py:89-91) compares only sample count, `angle_min` and
`angle_max`, so the second scan reuses the first scan's table, while the
recompute-every-call decoder uses the second scan's increment — the outputs
differ (here with table generators `id`, and likewise for the real cos/sin,
which are injective on `[0, π]`). -/
theorem laser_cache_cex :
    laser_run (fun x => x) (fun x => x) laserInit
        [⟨[1, 1], 0, 1, 1⟩, ⟨[1, 1], 0, 1, 2⟩] ≠
      [(⟨[1, 1], 0, 1, 1⟩ : LaserScan), ⟨[1, 1], 0, 1, 2⟩].map
        (laser_fresh (fun x => x) (fun x => x)) := by
  have hL : laser_run (fun x => x) (fun x => x) laserInit
      [⟨[1, 1], 0, 1, 1⟩, ⟨[1, 1], 0, 1, 2⟩] =
      [[(0, 0, 0), (1, 1, 0)], [(0, 0, 0), (1, 1, 0)]] := by
    norm_num [laser_run, laser_decode, laserInit, computeMap, scanPoints, List.range_succ]
  have hR : [(⟨[1, 1], 0, 1, 1⟩ : LaserScan), ⟨[1, 1], 0, 1, 2⟩].map
      (laser_fresh (fun x => x) (fun x => x)) =
      [[(0, 0, 0), (1, 1, 0)], [(0, 0, 0), (2, 2, 0)]] := by
    norm_num [laser_fresh, computeMap, scanPoints, List.range_succ]
  rw [hL, hR]
  intro h
  norm_num at h

theorem computeMap_length (cosF sinF : ℚ → ℚ) (amin ainc : ℚ) (N : Nat) :
    (computeMap cosF sinF amin ainc N).length = N := by
  rw [computeMap, List.length_map, List.length_range]

/-- The cached table is coherent with every remaining message that would pass
the dirty check against it. -/
def tableOK (cosF sinF : ℚ → ℚ) (st : LaserState) (msgs : List LaserScan) : Prop :=
  ∀ m ∈ msgs, m.ranges.length = st.cos_sin_map.length → m.angle_min = st.angle_min →
    m.angle_max = st.angle_max →
    st.cos_sin_map = computeMap cosF sinF m.angle_min m.angle_increment m.ranges.length

theorem laser_run_eq_fresh_aux (cosF sinF : ℚ → ℚ) :
    ∀ msgs : List LaserScan,
      msgs.Pairwise (fun a b => a.ranges.length = b.ranges.length →
        a.angle_min = b.angle_min → a.angle_max = b.angle_max →
        a.angle_increment = b.angle_increment) →
      ∀ st : LaserState, tableOK cosF sinF st msgs →
        laser_run cosF sinF st msgs = msgs.map (laser_fresh cosF sinF) := by
  intro msgs
  induction msgs with
  | nil =>
    intro _ st _
    rfl
  | cons m rest ih =>
    intro hp st hok
    obtain ⟨hpm, hprest⟩ := List.pairwise_cons.mp hp
    by_cases hdirty : st.cos_sin_map.length ≠ m.ranges.length ∨
        st.angle_min ≠ m.angle_min ∨ st.angle_max ≠ m.angle_max
    · have hdec : laser_decode cosF sinF st m =
          (laser_fresh cosF sinF m,
            ⟨m.angle_min, m.angle_max,
              computeMap cosF sinF m.angle_min m.angle_increment m.ranges.length⟩) := by
        simp only [laser_decode, if_pos hdirty]
        rfl
      simp only [laser_run, hdec, List.map_cons]
      refine congrArg _ (ih hprest _ ?_)
      intro m' hm' hlen hmin hmax
      simp only at hlen hmin hmax
      rw [computeMap_length] at hlen
      have hinc : m.angle_increment = m'.angle_increment :=
        hpm m' hm' hlen.symm hmin.symm hmax.symm
      simp only [hmin, hinc, hlen]
    · push_neg at hdirty
      obtain ⟨hlen, hmin, hmax⟩ := hdirty
      have hdec : laser_decode cosF sinF st m = (scanPoints m.ranges st.cos_sin_map, st) := by
        simp only [laser_decode]
        rw [if_neg]
        push_neg
        exact ⟨hlen, hmin, hmax⟩
      have htbl : st.cos_sin_map =
          computeMap cosF sinF m.angle_min m.angle_increment m.ranges.length :=
        hok m (List.mem_cons_self m rest) hlen.symm hmin.symm hmax.symm
      have hout : scanPoints m.ranges st.cos_sin_map = laser_fresh cosF sinF m := by
        rw [laser_fresh, htbl]
      simp only [laser_run, hdec, List.map_cons]
      rw [hout, ih hprest st (fun m' hm' => hok m' (List.mem_cons_of_mem m hm'))]

/-- C6 (amended): decoding with the cached cos/sin table is bit-identical to
recomputing the table on every call *provided* that any two scans in the
sequence agreeing on sample count and angular bounds (the components the
dirty check compares) also agree on `angle_increment`; the cache key omits
`angle_increment`, so without that proviso a scan changing only its increment
reuses a stale table. Stated for every table-generator pair `cosF`/`sinF`. -/
theorem laser_cache_coherent (cosF sinF : ℚ → ℚ) (msgs : List LaserScan)
    (hp : msgs.Pairwise (fun a b => a.ranges.length = b.ranges.length →
      a.angle_min = b.angle_min → a.angle_max = b.angle_max →
      a.angle_increment = b.angle_increment)) :
    laser_run cosF sinF laserInit msgs = msgs.map (laser_fresh cosF sinF) := by
  refine laser_run_eq_fresh_aux cosF sinF msgs hp laserInit ?_
  intro m _ hlen _ _
  simp only [laserInit] at hlen ⊢
  rw [List.length_nil] at hlen
  rw [hlen]
  rfl

theorem laser_cache_coherent_witness :
    ([(⟨[1, 1], 0, 1, 1⟩ : LaserScan), ⟨[2, 3], 0, 1, 1⟩].Pairwise
      (fun a b => a.ranges.length = b.ranges.length → a.angle_min = b.angle_min →
        a.angle_max = b.angle_max → a.angle_increment = b.angle_increment)) ∧
    laser_run (fun x => x + 1) (fun x => x) laserInit
        [⟨[1, 1], 0, 1, 1⟩, ⟨[2, 3], 0, 1, 1⟩] =
      [(⟨[1, 1], 0, 1, 1⟩ : LaserScan), ⟨[2, 3], 0, 1, 1⟩].map
        (laser_fresh (fun x => x + 1) (fun x => x)) :=
  ⟨by decide, laser_cache_coherent _ _ _ (by decide)⟩

/-! ### Gazebo model-state decoding (`GazeboDecoder`) -/

/-- One entry of a `gazebo_msgs/ModelStates.pose` array. -/
structure PoseMsg where
  position : ℚ × ℚ × ℚ
  orientation : ℚ × ℚ × ℚ × ℚ
deriving DecidableEq

/-- The fields of a `ModelStates` message the decoder reads. -/
structure ModelStates where
  name : List String
  pose : List PoseMsg
deriving DecidableEq

/-- `RigidTransform(xyzw=[ori.x,ori.y,ori.z,ori.w], tvec=[tvec.x,tvec.y,tvec.z])`. -/
def poseToRT (p : PoseMsg) : RigidTransform :=
  ⟨[p.position.1, p.position.2.1, p.position.2.2],
   [p.orientation.1, p.orientation.2.1, p.orientation.2.2.1, p.orientation.2.2.2]⟩

/-- How `GazeboDecoder.decode` fails: indexing `msg.pose` with the
never-found index `None` (a `TypeError` in Python — the lookup failure), or
with a cached index past the end of the pose array (`IndexError`). -/
inductive GzErr
  | nameNotFound
  | indexOutOfRange
deriving DecidableEq

/-- `GazeboDecoder.decode` (src/ros/bag_utils.py:33-42): if no index is
cached yet, search `msg.name` for the first occurrence of `'mobile_base'`;
then read `msg.pose` at the (possibly just-) cached index. When the search
finds nothing the index stays `None` and the read fails. -/
def gazebo_decode (st : Option Nat) (msg : ModelStates) :
    Except GzErr RigidTransform × Option Nat :=
  let st' :=
    match st with
    | none => msg.name.findIdx? (fun n => n == "mobile_base")
    | some j => some j
  match st' with
  | none => (Except.error GzErr.nameNotFound, none)
  | some j =>
    match msg.pose[j]? with
    | some p => (Except.ok (poseToRT p), some j)
    | none => (Except.error GzErr.indexOutOfRange, some j)

/-- Decode a stream of model-state messages threading the cached index. -/
def gazebo_run (st : Option Nat) : List ModelStates → List (Except GzErr RigidTransform) × Option Nat
  | [] => ([], st)
  | m :: rest =>
    let p := gazebo_decode st m
    let q := gazebo_run p.2 rest
    (p.1 :: q.1, q.2)

theorem gazebo_decode_not_found (msg : ModelStates) (h : "mobile_base" ∉ msg.name) :
    gazebo_decode none msg = (Except.error GzErr.nameNotFound, none) := by
  have hidx : msg.name.findIdx? (fun n => n == "mobile_base") = none := by
    rw [List.findIdx?_eq_none_iff]
    intro x hx
    simp only [beq_eq_false_iff_ne, ne_eq]
    intro hxe
    exact h (hxe ▸ hx)
  simp [gazebo_decode, hidx]

/-- C9: (a) over any stream in which `'mobile_base'` never appears in the
name array, every decode fails with the name-lookup failure and no index is
ever cached; (b) on a cache miss the decoder caches exactly the index of the
first match of `'mobile_base'` in the message's name array; (c) once an index
`j` is cached, every subsequent decode keeps `j` and reads the pose at that
fixed index, never searching the name array again. -/
theorem gazebo_decoder_spec (msgs : List ModelStates)
    (h : ∀ m ∈ msgs, "mobile_base" ∉ m.name) :
    ((gazebo_run none msgs).1 = msgs.map (fun _ => Except.error GzErr.nameNotFound) ∧
      (gazebo_run none msgs).2 = none) ∧
    (∀ msg : ModelStates,
      (gazebo_decode none msg).2 = msg.name.findIdx? (fun n => n == "mobile_base")) ∧
    (∀ (j : Nat) (msg : ModelStates),
      gazebo_decode (some j) msg =
        ((match msg.pose[j]? with
          | some p => Except.ok (poseToRT p)
          | none => Except.error GzErr.indexOutOfRange), some j)) := by
  refine ⟨?_, ?_, ?_⟩
  · induction msgs with
    | nil => exact ⟨rfl, rfl⟩
    | cons m rest ih =>
      have hm : "mobile_base" ∉ m.name := h m (List.mem_cons_self m rest)
      have hrest := ih (fun m' hm' => h m' (List.mem_cons_of_mem m hm'))
      simp only [gazebo_run, gazebo_decode_not_found m hm, List.map_cons]
      exact ⟨by rw [hrest.1], hrest.2⟩
  · intro msg
    cases hidx : msg.name.findIdx? (fun n => n == "mobile_base") with
    | none => simp [gazebo_decode, hidx]
    | some j =>
      cases hg : msg.pose[j]? with
      | none => simp [gazebo_decode, hidx, hg]
      | some p => simp [gazebo_decode, hidx, hg]
  · intro j msg
    cases hg : msg.pose[j]? with
    | none => simp [gazebo_decode, hg]
    | some p => simp [gazebo_decode, hg]

theorem gazebo_decoder_spec_witness :
    (∀ m ∈ [(⟨["turtle", "ground_plane"], [⟨(1, 2, 3), (0, 0, 0, 1)⟩]⟩ : ModelStates)],
        "mobile_base" ∉ m.name) ∧
    (((gazebo_run none [(⟨["turtle", "ground_plane"], [⟨(1, 2, 3), (0, 0, 0, 1)⟩]⟩ : ModelStates)]).1 =
        [(⟨["turtle", "ground_plane"], [⟨(1, 2, 3), (0, 0, 0, 1)⟩]⟩ : ModelStates)].map
          (fun _ => Except.error GzErr.nameNotFound) ∧
      (gazebo_run none [(⟨["turtle", "ground_plane"], [⟨(1, 2, 3), (0, 0, 0, 1)⟩]⟩ : ModelStates)]).2 = none) ∧
    (∀ msg : ModelStates,
      (gazebo_decode none msg).2 = msg.name.findIdx? (fun n => n == "mobile_base")) ∧
    (∀ (j : Nat) (msg : ModelStates),
      gazebo_decode (some j) msg =
        ((match msg.pose[j]? with
          | some p => Except.ok (poseToRT p)
          | none => Except.error GzErr.indexOutOfRange), some j))) :=
  ⟨by decide, gazebo_decoder_spec _ (by decide)⟩

end PyBot
